import Mathlib

set_option maxRecDepth 100000

/-!
Verification of the ruzule Mach-O injection tool against its specification.

The development shallowly embeds the relevant parts of `src/macho.rs`,
`src/app_bundle.rs`, `src/executable.rs`, `src/frameworks.rs` and
`src/deb.rs`.

Modelling conventions:

* A Mach-O slice is a `List Nat` of bytes (each entry intended `< 256`);
  out-of-bounds reads yield 0 via `List.getD` (the Rust code panics; all
  theorems keep indices in bounds, so the two agree on every input that
  appears in a statement).
* Rust strings are modelled as `List Nat` byte lists inside the byte-level
  editor.  `std::str::from_utf8` validation in `extract_dylib_path` is not
  modelled: the extracted bytes are only ever compared against a valid
  UTF-8 path, and byte equality with a valid UTF-8 string already implies
  UTF-8 validity, so the comparison results agree.
* The results of the external parsers (goblin `Mach::parse` for fat files,
  the per-slice lib list) are passed in abstractly where the repository
  code only consumes them (`thin_to_arm64`, `get_dependencies`).
* File-system side effects are modelled by explicit state passing: a file
  on disk is its list of slices, and a function returns the pair
  (result, bytes on disk after the call).
-/

namespace Ruzule

/-! ## Byte-level primitives -/

/-- Read one byte; out of bounds reads give 0 (the Rust code would panic,
which no theorem below exercises). -/
def byte (data : List Nat) (i : Nat) : Nat := data.getD i 0

/-- `u32::from_le_bytes` on four consecutive bytes, as in `read_u32_le`. -/
def read32 (data : List Nat) (o : Nat) : Nat :=
  byte data o + 256 * byte data (o + 1) + 65536 * byte data (o + 2) +
    16777216 * byte data (o + 3)

/-- Little-endian `u64` read, used for 64-bit segment fields. -/
def read64 (data : List Nat) (o : Nat) : Nat :=
  read32 data o + 4294967296 * read32 data (o + 4)

/-- `u32::to_le_bytes` (the value is truncated to 32 bits, as in Rust). -/
def le32 (n : Nat) : List Nat :=
  [n % 256, n / 256 % 256, n / 65536 % 256, n / 16777216 % 256]

/-- `u64::to_le_bytes`. -/
def le64 (n : Nat) : List Nat := le32 (n % 4294967296) ++ le32 (n / 4294967296)

/-- Overwrite the byte range `[o, o + bs.length)` of `data` with `bs`
(`copy_from_slice` / the element-wise loops of the Rust code). -/
def writeAt (data : List Nat) (o : Nat) (bs : List Nat) : List Nat :=
  data.take o ++ bs ++ data.drop (o + bs.length)

/-- Bytes of the NUL-terminated C string starting at offset `o`
(the `while end < len && data[end] != 0` loop of `extract_dylib_path`). -/
def cstr (data : List Nat) (o : Nat) : List Nat :=
  (data.drop o).takeWhile (fun b => b != 0)

/-- `(8 - (n % 8)) % 8`: padding that rounds `n` up to a multiple of 8. -/
def pad8 (n : Nat) : Nat := (8 - n % 8) % 8

/-- Rust `str::ends_with`. -/
def endsWithS (s suffix : String) : Bool := decide (suffix.toList <:+ s.toList)

/-- Rust `str::contains` (substring containment). -/
def containsFrag (s frag : String) : Bool := decide (frag.toList <:+: s.toList)

/-- Rust `str::starts_with`. -/
def startsWithS (s pre : String) : Bool := decide (pre.toList <+: s.toList)

/-- Rust `str::to_lowercase`, restricted to ASCII (every string it is
applied to in the claims is ASCII). -/
def toLowerS (s : String) : String := String.mk (s.toList.map Char.toLower)

/-- Rust `str::strip_suffix(...).unwrap()` (callers check the suffix
first). -/
def stripSuffixS (s suffix : String) : String :=
  String.mk (s.toList.take (s.toList.length - suffix.toList.length))

/-! ## Mach-O constants (values from goblin / mach-o headers) -/

def MH_MAGIC_64 : Nat := 0xfeedfacf
def CPU_TYPE_ARM64 : Nat := 0x0100000c
def CPU_TYPE_X86_64 : Nat := 0x01000007
def LC_SEGMENT : Nat := 0x1
def LC_SEGMENT_64 : Nat := 0x19
def LC_LOAD_DYLIB : Nat := 0xc
def LC_ID_DYLIB : Nat := 0xd
def LC_LOAD_WEAK_DYLIB : Nat := 0x80000018
def LC_REEXPORT_DYLIB : Nat := 0x8000001f
def LC_LAZY_LOAD_DYLIB : Nat := 0x20
def LC_LOAD_UPWARD_DYLIB : Nat := 0x80000023
def LC_RPATH : Nat := 0x8000001c

/-- `DYLIB_COMMANDS` from `macho.rs`. -/
def DYLIB_COMMANDS : List Nat :=
  [LC_LOAD_DYLIB, LC_LOAD_WEAK_DYLIB, LC_REEXPORT_DYLIB, LC_LAZY_LOAD_DYLIB,
   LC_LOAD_UPWARD_DYLIB]

/-! ## Load-command enumeration

goblin enumerates `ncmds` commands starting right after the header; the
header size is decided by the magic (`MH_MAGIC_64` gives 32, otherwise 28).
Each command contributes `(offset, cmd, cmdsize)` where `cmd` and `cmdsize`
are the two leading `u32` fields. -/

/-- Header size used by the parser (decided by the magic). -/
def goblinHeaderSize (data : List Nat) : Nat :=
  if read32 data 0 == MH_MAGIC_64 then 32 else 28

/-- Header size computed by the repository code itself:
`if is_64 { 32 } else { 28 }` with `is_64 = (cputype == CPU_TYPE_ARM64)`.
Note this conflates ARM64 with 64-bit (spec design note 9c). -/
def codeHeaderSize (data : List Nat) : Nat :=
  if read32 data 4 == CPU_TYPE_ARM64 then 32 else 28

def lcOffsetsAux (data : List Nat) : Nat → Nat → List Nat
  | _, 0 => []
  | o, n + 1 => o :: lcOffsetsAux data (o + read32 data (o + 4)) n

/-- Offsets of the `ncmds` load commands, as the goblin parse exposes them. -/
def lcOffsets (data : List Nat) : List Nat :=
  lcOffsetsAux data (goblinHeaderSize data) (read32 data 16)

/-- `extract_dylib_path` from `macho.rs` (UTF-8 validation dropped, see the
module comment). -/
def extract_dylib_path (data : List Nat) (off nameRel : Nat) :
    Option (List Nat) :=
  if off + nameRel ≥ data.length then none
  else some (cstr data (off + nameRel))

/-- `manually_parse_dylib` from `macho.rs`: read the name-offset field at
byte 8 of the command and extract the string it points at. -/
def manually_parse_dylib (data : List Nat) (off : Nat) : Option (List Nat) :=
  if off + 12 > data.length then none
  else extract_dylib_path data off (read32 data (off + 8))

/-- The per-command test of the `dylib_exists_in_macho` closure: goblin
only produces `CommandVariant::LoadDylib` for `LC_LOAD_DYLIB`; every other
command (dylib-class or not) goes through `manually_parse_dylib`. -/
def dylibExistsCmd (data : List Nat) (off : Nat) (path : List Nat) : Bool :=
  if read32 data off == LC_LOAD_DYLIB then
    extract_dylib_path data off (read32 data (off + 8)) == some path
  else
    manually_parse_dylib data off == some path

/-- `dylib_exists_in_macho` over all load commands. -/
def dylibExists (data : List Nat) (path : List Nat) : Bool :=
  (lcOffsets data).any (fun off => dylibExistsCmd data off path)

/-- The `min_fileoff` filter: a segment command with nonzero `filesize` and
nonzero `fileoff` contributes its `fileoff`. -/
def segFileoff (data : List Nat) (off : Nat) : Option Nat :=
  if read32 data off == LC_SEGMENT_64 then
    if read64 data (off + 48) > 0 ∧ read64 data (off + 40) > 0 then
      some (read64 data (off + 40))
    else none
  else if read32 data off == LC_SEGMENT then
    if read32 data (off + 36) > 0 ∧ read32 data (off + 32) > 0 then
      some (read32 data (off + 32))
    else none
  else none

/-- Smallest nonzero segment file offset (`None` plays the role of
`u64::MAX`). -/
def minFileoff (data : List Nat) : Option Nat :=
  ((lcOffsets data).filterMap (segFileoff data)).min?

/-- End of the load-command region as the code computes it:
`header_size + current_sizeofcmds`. -/
def lcRegionEnd (data : List Nat) : Nat := codeHeaderSize data + read32 data 20

/-- `data_start`: the smallest nonzero segment offset, or the file length
when there is no segment. -/
def dataStart (data : List Nat) : Nat := (minFileoff data).getD data.length

/-- `available_space = data_start.saturating_sub(load_commands_end)`:
the header slack. -/
def availableSpace (data : List Nat) : Nat := dataStart data - lcRegionEnd data

/-- `cmdsize` of the appended `LC_LOAD_WEAK_DYLIB`:
`24 + len + 1 + padding`. -/
def weakCmdSize (path : List Nat) : Nat :=
  24 + path.length + 1 + pad8 (path.length + 1)

/-- The bytes of the appended weak-dylib command, in the order the code
pushes them: cmd, cmdsize, name offset 24, timestamp 2, current version
0x10000, compat version 0x10000, path, NUL, zero padding. -/
def weakCmdBytes (path : List Nat) : List Nat :=
  le32 LC_LOAD_WEAK_DYLIB ++ le32 (weakCmdSize path) ++ le32 24 ++ le32 2 ++
    le32 0x00010000 ++ le32 0x00010000 ++ path ++ [0] ++
    List.replicate (pad8 (path.length + 1)) 0

/-- `MachOExt::add_dylib_load_path` (macho.rs lines 29-130), per slice. -/
def add_dylib_load_path (data : List Nat) (path : List Nat) :
    Except String (List Nat) :=
  if dylibExists data path then .ok data
  else
    let cmdSize := weakCmdSize path
    if cmdSize > availableSpace data then
      .error ("Not enough space for new load command (need " ++
        toString cmdSize ++ ", have " ++ toString (availableSpace data) ++ ")")
    else
      let insertOffset := lcRegionEnd data
      let d1 := writeAt data insertOffset (weakCmdBytes path)
      let d2 := writeAt d1 20 (le32 (read32 data 20 + cmdSize))
      let d3 := writeAt d2 16 (le32 (read32 data 16 + 1))
      .ok d3

/-- Whether an `Except` holds an error (`Result::is_err`). -/
def isErr {ε α : Type} : Except ε α → Bool
  | .error _ => true
  | .ok _ => false

/-- Two consecutive calls of the append on the same slice. -/
def addTwice (data : List Nat) (path : List Nat) : Except String (List Nat) :=
  match add_dylib_load_path data path with
  | .ok d1 => add_dylib_load_path d1 path
  | .error e => .error e

/-! ## add_rpath (macho.rs lines 275-377), per slice -/

/-- The `rpath_exists` check: only `LC_RPATH` commands are examined, the
path-offset field sits at byte 8 of the command. -/
def rpathExists (data : List Nat) (path : List Nat) : Bool :=
  (lcOffsets data).any (fun off =>
    read32 data off == LC_RPATH &&
      (if off + 8 + 4 ≤ data.length then
        extract_dylib_path data off (read32 data (off + 8)) == some path
      else false))

/-- `cmdsize` of an appended `LC_RPATH`: `12 + len + 1 + padding`. -/
def rpathCmdSize (path : List Nat) : Nat :=
  12 + path.length + 1 + pad8 (path.length + 1)

def rpathCmdBytes (path : List Nat) : List Nat :=
  le32 LC_RPATH ++ le32 (rpathCmdSize path) ++ le32 12 ++ path ++ [0] ++
    List.replicate (pad8 (path.length + 1)) 0

/-- `MachOExt::add_rpath`, per slice. -/
def add_rpath_slice (data : List Nat) (path : List Nat) :
    Except String (List Nat) :=
  if rpathExists data path then .ok data
  else
    let cmdSize := rpathCmdSize path
    if cmdSize > availableSpace data then
      .error ("Not enough space for new rpath command (need " ++
        toString cmdSize ++ ", have " ++ toString (availableSpace data) ++ ")")
    else
      let d1 := writeAt data (lcRegionEnd data) (rpathCmdBytes path)
      let d2 := writeAt d1 20 (le32 (read32 data 20 + cmdSize))
      let d3 := writeAt d2 16 (le32 (read32 data 16 + 1))
      .ok d3

/-! ## replace_install_name (macho.rs lines 212-273), per slice -/

/-- Offset of the first `LC_ID_DYLIB` command (the Rust loop breaks after
the first hit). -/
def findIdDylib (data : List Nat) : Option Nat :=
  (lcOffsets data).find? (fun off => read32 data off == LC_ID_DYLIB)

/-- `MachOExt::replace_install_name`, per slice.  With no `LC_ID_DYLIB`
present the buffer is written back unchanged. -/
def replace_install_name (data : List Nat) (newName : List Nat) :
    Except String (List Nat) :=
  match findIdDylib data with
  | none => .ok data
  | some off =>
    let cmdsize := read32 data (off + 4)
    let oldName := extract_dylib_path data off (read32 data (off + 8))
    let nameOff := off + 24
    let available := cmdsize - 24
    let required := newName.length + 1 + pad8 (newName.length + 1)
    if required > available then
      .error "Not enough space for new install name"
    else
      let zeroed := match oldName with
        | some old =>
          let oldTotal := old.length + 1 + pad8 (old.length + 1)
          writeAt data nameOff (List.replicate (min oldTotal available) 0)
        | none => data
      .ok (writeAt zeroed nameOff newName)

/-! ## replace_dylib_load_path (macho.rs lines 132-210), per slice -/

/-- `find_dylib_matches`: dylib-class commands whose embedded path equals
`oldPath`, paired with their `cmdsize`. -/
def findDylibMatches (data : List Nat) (oldPath : List Nat) :
    List (Nat × Nat) :=
  ((lcOffsets data).filter
      (fun off => DYLIB_COMMANDS.contains (read32 data off))).filterMap
    (fun off =>
      let found :=
        if read32 data off == LC_LOAD_DYLIB then
          extract_dylib_path data off (read32 data (off + 8))
        else manually_parse_dylib data off
      match found with
      | some p => if p == oldPath then some (off, read32 data (off + 4))
                  else none
      | none => none)

/-- One replacement step of the `for (…) in &replacements` loop. -/
def replaceOneMatch (oldPath newPath : List Nat) (data : List Nat)
    (m : Nat × Nat) : Except String (List Nat) :=
  let nameOff := m.1 + 24
  let available := m.2 - 24
  let required := newPath.length + 1 + pad8 (newPath.length + 1)
  if required > available then
    .error "Not enough space for new dylib path"
  else
    let oldTotal := oldPath.length + 1 + pad8 (oldPath.length + 1)
    let zeroed := writeAt data nameOff (List.replicate (min oldTotal available) 0)
    .ok (writeAt zeroed nameOff newPath)

def foldReplacements (oldPath newPath : List Nat) (data : List Nat) :
    List (Nat × Nat) → Except String (List Nat)
  | [] => .ok data
  | m :: ms =>
    match replaceOneMatch oldPath newPath data m with
    | .error e => .error e
    | .ok d1 => foldReplacements oldPath newPath d1 ms

/-- `MachOExt::replace_dylib_load_path`, per slice.  Matches are computed
against the original bytes; an error drops the partially edited local
buffer, leaving the slice unchanged. -/
def replace_dylib_load_path (data : List Nat) (oldPath newPath : List Nat) :
    Except String (List Nat) :=
  match findDylibMatches data oldPath with
  | [] => .ok data
  | ms => foldReplacements oldPath newPath data ms

/-! ## File-level operations (macho.rs lines 510-585)

A file on disk is its list of Mach-O slices.  `add_weak_dylib` and friends
read the file, run the per-slice edit over every slice with `?`, and only
then call `write_mach_file`; an error from any slice therefore returns
before anything is written, so the bytes on disk are unchanged.  Each
file-level function returns (result, bytes on disk after the call). -/

def mapSlices (f : List Nat → Except String (List Nat)) :
    List (List Nat) → Except String (List (List Nat))
  | [] => .ok []
  | s :: rest =>
    match f s with
    | .error e => .error e
    | .ok s' =>
      match mapSlices f rest with
      | .error e => .error e
      | .ok rest' => .ok (s' :: rest')

/-- `add_weak_dylib`: per-slice `add_dylib_load_path`, then write back. -/
def add_weak_dylib_file (disk : List (List Nat)) (p : List Nat) :
    Except String Unit × List (List Nat) :=
  match mapSlices (fun s => add_dylib_load_path s p) disk with
  | .error e => (.error e, disk)
  | .ok slices => (.ok (), slices)

/-- `add_rpath`: per-slice `add_rpath`, then write back. -/
def add_rpath_file (disk : List (List Nat)) (p : List Nat) :
    Except String Unit × List (List Nat) :=
  match mapSlices (fun s => add_rpath_slice s p) disk with
  | .error e => (.error e, disk)
  | .ok slices => (.ok (), slices)

/-- `replace_dylib`: per-slice `replace_dylib_load_path`, then write back. -/
def replace_dylib_file (disk : List (List Nat)) (oldP newP : List Nat) :
    Except String Unit × List (List Nat) :=
  match mapSlices (fun s => replace_dylib_load_path s oldP newP) disk with
  | .error e => (.error e, disk)
  | .ok slices => (.ok (), slices)

/-- `change_install_name`: per-slice `replace_install_name`, write back. -/
def change_install_name_file (disk : List (List Nat)) (newName : List Nat) :
    Except String Unit × List (List Nat) :=
  match mapSlices (fun s => replace_install_name s newName) disk with
  | .error e => (.error e, disk)
  | .ok slices => (.ok (), slices)

/-! ## thin_to_arm64 (macho.rs lines 587-612)

The goblin `Mach::parse` result is passed in abstractly: a thin binary
exposes its `cputype`, a fat binary its arch table (cputype, byte offset,
byte size).  The function returns whether the file was modified together
with the bytes written back. -/

structure FatArch where
  cputype : Nat
  offset : Nat
  size : Nat
deriving DecidableEq, Repr

inductive MachParse where
  | binary (cputype : Nat)
  | fat (arches : List FatArch)
deriving DecidableEq, Repr

/-- `thin_to_arm64`: thin ARM64 is a no-change success, thin non-ARM64 is
an error; for fat files the first ARM64 arch has its exact byte range
written as the new file. -/
def thin_to_arm64 (data : List Nat) (parse : MachParse) :
    Except String (Bool × List Nat) :=
  match parse with
  | .binary cputype =>
    if cputype == CPU_TYPE_ARM64 then .ok (false, data)
    else .error "Binary is not arm64"
  | .fat arches =>
    match arches.find? (fun a => a.cputype == CPU_TYPE_ARM64) with
    | some a => .ok (true, (data.drop a.offset).take a.size)
    | none => .error "No arm64 slice found in fat binary"

/-! ## get_dependencies (macho.rs lines 470-508)

The parse is abstract: a thin file carries its goblin `libs` list; each
slice of a fat file either fails to parse (it is skipped) or carries its
`libs`.  The loop over fat arches breaks after the first slice that parses
successfully. -/

inductive SliceParse where
  | failed
  | parsed (libs : List String)
deriving DecidableEq, Repr

inductive MachDeps where
  | binary (libs : List String)
  | fat (slices : List SliceParse)
deriving DecidableEq, Repr

/-- `collect_deps_goblin`: push every non-empty lib string. -/
def collectLibs (libs : List String) : List String :=
  libs.filter (fun l => !l.toList.isEmpty)

/-- The fat loop: skip failed parses, take the first successful one and
break. -/
def firstParsedLibs : List SliceParse → List String
  | [] => []
  | .failed :: rest => firstParsedLibs rest
  | .parsed libs :: _ => libs

/-- The final filter of `get_dependencies`. -/
def depFilter (d : String) : Bool :=
  startsWithS d "/Library/" || startsWithS d "/usr/lib/" || startsWithS d "@"

/-- `get_dependencies`. -/
def get_dependencies (m : MachDeps) : List String :=
  (match m with
   | .binary libs => collectLibs libs
   | .fat slices => collectLibs (firstParsedLibs slices)).filter depFilter

/-! ## Deb extraction dispatch (deb.rs lines 91-134)

Only the compression dispatch decides claim C8; the decompressors and the
tar unpacking are external crates and are modelled as succeeding.  The
suffix tests appear in the order of the Rust `if` chain. -/

/-- `extract_data_tar`, reduced to its compression dispatch on the member
name. -/
def extract_data_tar (tarName : String) : Except String Unit :=
  if endsWithS tarName ".tar.gz" || endsWithS tarName ".tar.gzip" then .ok ()
  else if endsWithS tarName ".tar.xz" then .ok ()
  else if endsWithS tarName ".tar.lzma" then .ok ()
  else if endsWithS tarName ".tar.zst" || endsWithS tarName ".tar.zstd" then
    .error "zstd compression not yet supported"
  else if endsWithS tarName ".tar.bz2" then
    .error "bz2 compression not yet supported"
  else .ok ()

/-! ## The injection planner (app_bundle.rs lines 283-416)

The planner is modelled at the level of names and paths:

* the main executable is the pair of its dylib-class load-command paths
  and its rpaths; `inject_dylib` and `add_rpath` append when the path is
  not already present (the duplicate checks of the byte-level editor);
* the bundle is the list of bundle-relative paths the pass materialises;
* a tweak is its basename, the dependency list of its binary (what
  `get_dependencies` returns for it) and whether the source is a symlink.

Signature stripping, entitlement handling and the edits applied to the
injected artifact itself (`fix_dependencies`, `fix_install_name`) change
neither the main executable load commands nor the set of installed paths,
so they do not appear in the state.  `.deb` extraction (step 4) is not
modelled; the theorems below only quantify over tweak maps without `.deb`
keys.  The Rust `HashMap` iteration order is arbitrary; the model fixes a
list order, and the claims proved are order-insensitive. -/

/-- `HashSet::insert` on the modelled `needed` set. -/
def insertIfAbsent (l : List String) (x : String) : List String :=
  if x ∈ l then l else l ++ [x]

/-- One entry of `COMMON_DEPS` (executable.rs lines 14-37). -/
structure CommonDep where
  name : String
  path : String
deriving DecidableEq, Repr

/-- The `COMMON_DEPS` registry. -/
def COMMON_DEPS : List (String × CommonDep) :=
  [("substrate.", ⟨"CydiaSubstrate.framework",
      "@rpath/CydiaSubstrate.framework/CydiaSubstrate"⟩),
   ("orion.", ⟨"Orion.framework", "@rpath/Orion.framework/Orion"⟩),
   ("cephei.", ⟨"Cephei.framework", "@rpath/Cephei.framework/Cephei"⟩),
   ("cepheiui.", ⟨"CepheiUI.framework", "@rpath/CepheiUI.framework/CepheiUI"⟩),
   ("cepheiprefs.", ⟨"CepheiPrefs.framework",
      "@rpath/CepheiPrefs.framework/CepheiPrefs"⟩)]

/-- Inner step of `fix_common_dependencies`: one dependency string against
one registry entry records the fragment in `needed` when the lowercased
dependency contains it. -/
def commonStep (depLower : String) (acc : List String)
    (kv : String × CommonDep) : List String :=
  if containsFrag depLower kv.1 then insertIfAbsent acc kv.1 else acc

/-- `fix_common_dependencies` for a single dependency string (executable.rs
lines 92-105); only the `needed` bookkeeping is state, the rewrite of the
artifact itself does not touch the planner state. -/
def fixCommonDepsOne (dep : String) (needed : List String) : List String :=
  COMMON_DEPS.foldl (commonStep (toLowerS dep)) needed

/-- `fix_common_dependencies` over the whole dependency list. -/
def fixCommonDeps (deps : List String) (needed : List String) : List String :=
  deps.foldl (fun acc dep => fixCommonDepsOne dep acc) needed

/-- `get_framework_for_dep` (frameworks.rs lines 60-69), returning the
short framework name. -/
def get_framework_for_dep (k : String) : Option String :=
  if k == "substrate." then some "CydiaSubstrate"
  else if k == "orion." then some "Orion"
  else if k == "cephei." then some "Cephei"
  else if k == "cepheiui." then some "CepheiUI"
  else if k == "cepheiprefs." then some "CepheiPrefs"
  else none

structure Tweak where
  bn : String
  deps : List String
  isSymlink : Bool
deriving DecidableEq, Repr

/-- Load-command state of the main executable. -/
structure MainExe where
  dylibCmds : List String
  rpaths : List String
deriving DecidableEq, Repr

/-- `inject_dylib` on the main executable: `add_weak_dylib` appends an
`LC_LOAD_WEAK_DYLIB` unless a dylib-class command with this path exists. -/
def injectDylibCmd (exe : MainExe) (p : String) : MainExe :=
  if p ∈ exe.dylibCmds then exe
  else { exe with dylibCmds := exe.dylibCmds ++ [p] }

/-- `add_rpath` on the main executable: appends unless present. -/
def addRpathCmd (exe : MainExe) (p : String) : MainExe :=
  if p ∈ exe.rpaths then exe else { exe with rpaths := exe.rpaths ++ [p] }

/-- Planner state: main executable commands, materialised bundle-relative
paths, and the `needed` fragment set. -/
structure BundleState where
  exe : MainExe
  files : List String
  needed : List String
deriving DecidableEq, Repr

/-- The per-tweak dispatch of `AppBundle::inject` step 5 (app_bundle.rs
lines 325-386). -/
def processTweak (ufd : Bool) (st : BundleState) (t : Tweak) : BundleState :=
  if t.isSymlink then st
  else if endsWithS t.bn ".appex" then
    { st with files := st.files ++ ["PlugIns/" ++ t.bn] }
  else if endsWithS t.bn ".dylib" then
    let needed1 := fixCommonDeps t.deps st.needed
    let injectPath := if ufd then "@rpath/" ++ t.bn
                      else "@executable_path/" ++ t.bn
    let dest := if ufd then "Frameworks/" ++ t.bn else t.bn
    { exe := injectDylibCmd st.exe injectPath,
      files := st.files ++ [dest],
      needed := needed1 }
  else if endsWithS t.bn ".framework" then
    let stem := stripSuffixS t.bn ".framework"
    let injectPath := if ufd then "@rpath/" ++ t.bn ++ "/" ++ stem
                      else "@executable_path/" ++ t.bn ++ "/" ++ stem
    let dest := if ufd then "Frameworks/" ++ t.bn else t.bn
    { st with exe := injectDylibCmd st.exe injectPath,
              files := st.files ++ [dest] }
  else if endsWithS t.bn ".bundle" then
    { st with files := st.files ++ [t.bn] }
  else
    { st with files := st.files ++ [t.bn] }

/-- `AppBundle::inject` (app_bundle.rs lines 283-416) on a tweak map
without `.deb` keys. -/
def inject (ufd : Bool) (tweaks : List Tweak) (exe0 : MainExe) : BundleState :=
  let hasInjectable := tweaks.any (fun t =>
    endsWithS t.bn ".deb" || endsWithS t.bn ".dylib" ||
      endsWithS t.bn ".framework")
  let exe1 := if hasInjectable && ufd then
      addRpathCmd exe0 "@executable_path/Frameworks"
    else exe0
  let st1 := tweaks.foldl (processTweak ufd) ⟨exe1, [], []⟩
  let needed2 := if "orion." ∈ st1.needed then
      insertIfAbsent st1.needed "substrate."
    else st1.needed
  let destDir := if ufd then "Frameworks/" else ""
  let extraFiles := needed2.filterMap (fun k =>
    (get_framework_for_dep k).map (fun n => destDir ++ n ++ ".framework/"))
  { exe := st1.exe, files := st1.files ++ extraFiles, needed := needed2 }

/-! ## Concrete binaries used by the witnesses and the C2 evaluation -/

/-- Byte list of an ASCII string. -/
def strBytes (s : String) : List Nat := s.toList.map Char.toNat

/-- The 16-byte `segname` field holding `__TEXT`. -/
def segnameTEXT : List Nat :=
  strBytes "__TEXT" ++ List.replicate 10 0

/-- A 64-bit Mach-O header (magic, cputype, cpusubtype 0, filetype 2,
ncmds, sizeofcmds, flags 0, reserved 0). -/
def machHeader (cputype ncmds sizeofcmds : Nat) : List Nat :=
  le32 MH_MAGIC_64 ++ le32 cputype ++ le32 0 ++ le32 2 ++ le32 ncmds ++
    le32 sizeofcmds ++ le32 0 ++ le32 0

/-- An `LC_SEGMENT_64` command for `__TEXT` with the given file range. -/
def segCmd64 (fileoff filesize : Nat) : List Nat :=
  le32 LC_SEGMENT_64 ++ le32 72 ++ segnameTEXT ++ le64 0 ++ le64 0x4000 ++
    le64 fileoff ++ le64 filesize ++ le32 5 ++ le32 5 ++ le32 0 ++ le32 0

/-- Thin ARM64 binary, one `__TEXT` segment at file offset 160: header
slack is 160 - 104 = 56 bytes. -/
def fileA : List Nat :=
  machHeader CPU_TYPE_ARM64 1 72 ++ segCmd64 160 8 ++
    List.replicate 56 0 ++ List.replicate 8 1

/-- Same as `fileA` with the segment one byte earlier: slack 55. -/
def fileB : List Nat :=
  machHeader CPU_TYPE_ARM64 1 72 ++ segCmd64 159 8 ++
    List.replicate 55 0 ++ List.replicate 8 1

/-- A 31-byte load path whose weak-dylib command needs exactly 56 bytes. -/
def path31 : List Nat := strBytes "@rpath/abcdefghijklmnopqrstuvwx"

/-- An 8-byte load path (command size 40). -/
def path8 : List Nat := strBytes "@rpath/x"

/-- Thin ARM64 dylib with a single `LC_ID_DYLIB` (payload 32 bytes,
old name `old.dylib`, trailing payload bytes zero). -/
def fileC : List Nat :=
  machHeader CPU_TYPE_ARM64 1 56 ++
    (le32 LC_ID_DYLIB ++ le32 56 ++ le32 24 ++ le32 0 ++ le32 0 ++ le32 0 ++
      strBytes "old.dylib" ++ [0] ++ List.replicate 22 0)

def newNameC : List Nat := strBytes "@rpath/new.dylib"

/-- Thin ARM64 binary with an `LC_LOAD_DYLIB a.dylib` (8-byte payload),
an `LC_ID_DYLIB b.dylib` (8-byte payload) and zero header slack; every
file-level mutation fails on it. -/
def fileD : List Nat :=
  machHeader CPU_TYPE_ARM64 3 136 ++
    (le32 LC_LOAD_DYLIB ++ le32 32 ++ le32 24 ++ le32 2 ++ le32 0x00010000 ++
      le32 0x00010000 ++ strBytes "a.dylib" ++ [0]) ++
    (le32 LC_ID_DYLIB ++ le32 32 ++ le32 24 ++ le32 2 ++ le32 0x00010000 ++
      le32 0x00010000 ++ strBytes "b.dylib" ++ [0]) ++
    segCmd64 168 8 ++ List.replicate 8 1

/-- A path long enough that it fits in no 8-byte dylib payload. -/
def pathLong : List Nat := strBytes "@rpath/verylongpath.dylib"

def pathOldA : List Nat := strBytes "a.dylib"

def rpathFrameworks : List Nat := strBytes "@executable_path/Frameworks"

/-- Thin x86_64 binary (64-bit magic, cputype 0x01000007), one `__TEXT`
segment at file offset 256: true header slack 152, but the code computes
the header size as 28 for it. -/
def fileX : List Nat :=
  machHeader CPU_TYPE_X86_64 1 72 ++ segCmd64 256 8 ++
    List.replicate 152 0 ++ List.replicate 8 1

/-- Thin x86_64 binary whose `__TEXT` segment starts at file offset 159:
the load-command region ends at 104, so the header slack in the sense of
the spec is 55 bytes — one byte less than the 56-byte command for
`path31` — but the code measures space from `28 + sizeofcmds = 100` and
sees 59 bytes. -/
def fileY : List Nat :=
  machHeader CPU_TYPE_X86_64 1 72 ++ segCmd64 159 8 ++
    List.replicate 55 0 ++ List.replicate 8 1

/-! ## Helper lemmas: bytes, writes and C strings -/

theorem length_writeAt {l bs : List Nat} {o : Nat} (h : o + bs.length ≤ l.length) :
    (writeAt l o bs).length = l.length := by
  simp [writeAt]
  omega

theorem byte_append_right {xs ys : List Nat} {j : Nat} :
    byte (xs ++ ys) (xs.length + j) = byte ys j := by
  simp only [byte, List.getD_eq_getElem?_getD, List.getElem?_append]
  rw [if_neg (by omega)]
  have : xs.length + j - xs.length = j := by omega
  rw [this]

theorem byte_append_left {xs ys : List Nat} {j : Nat} (h : j < xs.length) :
    byte (xs ++ ys) j = byte xs j := by
  simp only [byte, List.getD_eq_getElem?_getD, List.getElem?_append]
  rw [if_pos h]

theorem byte_take {l : List Nat} {o i : Nat} (h : i < o) :
    byte (l.take o) i = byte l i := by
  simp only [byte, List.getD_eq_getElem?_getD, List.getElem?_take_of_lt h]

theorem byte_drop {l : List Nat} {n j : Nat} :
    byte (l.drop n) j = byte l (n + j) := by
  simp only [byte, List.getD_eq_getElem?_getD, List.getElem?_drop]

theorem byte_writeAt_lt {l bs : List Nat} {o i : Nat} (hi : i < o)
    (ho : o ≤ l.length) :
    byte (writeAt l o bs) i = byte l i := by
  rw [writeAt, List.append_assoc, byte_append_left, byte_take hi]
  simp only [List.length_take]
  omega

theorem byte_append_ge {xs ys : List Nat} {i : Nat} (h : xs.length ≤ i) :
    byte (xs ++ ys) i = byte ys (i - xs.length) := by
  have hi : i = xs.length + (i - xs.length) := by omega
  conv_lhs => rw [hi]
  rw [byte_append_right]

theorem byte_writeAt_mid {l bs : List Nat} {o i : Nat} (h1 : o ≤ i)
    (h2 : i < o + bs.length) (ho : o ≤ l.length) :
    byte (writeAt l o bs) i = byte bs (i - o) := by
  have hlen : (l.take o).length = o := by simp; omega
  rw [writeAt, List.append_assoc, byte_append_ge (by omega), hlen,
    byte_append_left (by omega)]

theorem byte_writeAt_ge {l bs : List Nat} {o i : Nat} (h : o + bs.length ≤ i)
    (ho : o + bs.length ≤ l.length) :
    byte (writeAt l o bs) i = byte l i := by
  have hlen : (l.take o).length = o := by simp; omega
  rw [writeAt, List.append_assoc, byte_append_ge (by omega), hlen,
    byte_append_ge (by omega), byte_drop]
  congr 1
  omega

theorem byte_replicate_zero {n j : Nat} :
    byte (List.replicate n 0) j = 0 := by
  simp only [byte, List.getD_eq_getElem?_getD, List.getElem?_replicate]
  split <;> simp

theorem read32_congr {l₁ l₂ : List Nat} {o₁ o₂ : Nat}
    (h : ∀ k, k < 4 → byte l₁ (o₁ + k) = byte l₂ (o₂ + k)) :
    read32 l₁ o₁ = read32 l₂ o₂ := by
  have h0 := h 0 (by omega)
  have h1 := h 1 (by omega)
  have h2 := h 2 (by omega)
  have h3 := h 3 (by omega)
  simp only [Nat.add_zero] at h0
  simp only [read32, h0, h1, h2, h3]

theorem read32_writeAt_lt {l bs : List Nat} {o p : Nat} (h : p + 4 ≤ o)
    (ho : o ≤ l.length) :
    read32 (writeAt l o bs) p = read32 l p := by
  refine read32_congr fun k hk => ?_
  exact byte_writeAt_lt (by omega) ho

theorem read32_writeAt_ge {l bs : List Nat} {o p : Nat}
    (h : o + bs.length ≤ p) (ho : o + bs.length ≤ l.length) :
    read32 (writeAt l o bs) p = read32 l p := by
  refine read32_congr fun k hk => ?_
  exact byte_writeAt_ge (by omega) ho

theorem read32_writeAt_mid {l bs : List Nat} {o p : Nat} (h1 : o ≤ p)
    (h2 : p + 4 ≤ o + bs.length) (ho : o ≤ l.length) :
    read32 (writeAt l o bs) p = read32 bs (p - o) := by
  refine read32_congr fun k hk => ?_
  rw [byte_writeAt_mid (by omega) (by omega) ho]
  congr 1
  omega

theorem read32_le32 {v : Nat} : read32 (le32 v) 0 = v % 4294967296 := by
  simp [read32, le32, byte, List.getD]
  omega

theorem read32_le32_append {v : Nat} {rest : List Nat} :
    read32 (le32 v ++ rest) 0 = v % 4294967296 := by
  have h : ∀ k, k < 4 → byte (le32 v ++ rest) (0 + k) = byte (le32 v) (0 + k) := by
    intro k hk
    exact byte_append_left (by simp [le32]; omega)
  rw [read32_congr h, read32_le32]

theorem read32_append_skip {xs rest : List Nat} {k : Nat} :
    read32 (xs ++ rest) (xs.length + k) = read32 rest k := by
  refine read32_congr fun j hj => ?_
  have : xs.length + k + j = xs.length + (k + j) := by omega
  rw [this, byte_append_right]

theorem read32_writeAt_le32 {l : List Nat} {o v : Nat} (ho : o + 4 ≤ l.length) :
    read32 (writeAt l o (le32 v)) o = v % 4294967296 := by
  rw [read32_writeAt_mid (Nat.le_refl o) (by simp [le32]) (by omega)]
  simp only [Nat.sub_self]
  exact read32_le32

/-- Read a NUL-terminated string whose bytes and terminator are known
pointwise. -/
theorem cstr_eq {l : List Nat} {bs : List Nat} {o : Nat}
    (hlen : o + bs.length < l.length)
    (hnz : ∀ b ∈ bs, b ≠ 0)
    (hpt : ∀ j, j < bs.length → byte l (o + j) = byte bs j)
    (hz : byte l (o + bs.length) = 0) :
    cstr l o = bs := by
  induction bs generalizing o with
  | nil =>
    have ho : o < l.length := by simpa using hlen
    rw [cstr, List.drop_eq_getElem_cons ho]
    have : l[o] = 0 := by
      have := hz
      simp only [List.length_nil, Nat.add_zero, byte,
        List.getD_eq_getElem?_getD, List.getElem?_eq_getElem ho] at this
      simpa using this
    simp [this]
  | cons b rest ih =>
    have ho : o < l.length := by
      simp only [List.length_cons] at hlen
      omega
    rw [cstr, List.drop_eq_getElem_cons ho]
    have hb : l[o] = b := by
      have h0 := hpt 0 (by simp)
      simp only [Nat.add_zero, byte, List.getD_eq_getElem?_getD,
        List.getElem?_eq_getElem ho] at h0
      simpa [byte, List.getD] using h0
    have hbne : b ≠ 0 := hnz b (by simp)
    have hrec : cstr l (o + 1) = rest := by
      apply ih
      · simp only [List.length_cons] at hlen
        omega
      · intro x hx
        exact hnz x (List.mem_cons_of_mem _ hx)
      · intro j hj
        have hp := hpt (j + 1) (by simp only [List.length_cons]; omega)
        have harith : o + (j + 1) = o + 1 + j := by omega
        rw [harith] at hp
        rw [hp]
        simp [byte, List.getD]
      · have harith : o + 1 + rest.length = o + (b :: rest).length := by
          simp only [List.length_cons]
          omega
        rw [harith]
        exact hz
    have htail : (l.drop (o + 1)).takeWhile (fun x => x != 0) = cstr l (o + 1) :=
      rfl
    rw [List.takeWhile_cons, hb]
    simp only [bne_iff_ne, ne_eq, hbne, not_false_eq_true, decide_True, if_true]
    rw [htail, hrec]

/-! ## Structure of the appended weak-dylib command -/

theorem weakCmdBytes_length {p : List Nat} :
    (weakCmdBytes p).length = weakCmdSize p := by
  simp [weakCmdBytes, weakCmdSize, le32]
  omega

theorem weakCmdSize_ge {p : List Nat} : 25 ≤ weakCmdSize p := by
  simp [weakCmdSize]
  omega

theorem weakCmdBytes_assoc {p : List Nat} : weakCmdBytes p =
    le32 LC_LOAD_WEAK_DYLIB ++ (le32 (weakCmdSize p) ++ (le32 24 ++ (le32 2 ++
      (le32 65536 ++ (le32 65536 ++ (p ++ ([0] ++
        List.replicate (pad8 (p.length + 1)) 0))))))) := by
  simp [weakCmdBytes, List.append_assoc]

theorem read32_skip4 {v : Nat} {rest : List Nat} {k : Nat} :
    read32 (le32 v ++ rest) (4 + k) = read32 rest k := by
  have h4 : (le32 v).length = 4 := by simp [le32]
  conv_lhs => rw [show 4 + k = (le32 v).length + k from by rw [h4]]
  exact read32_append_skip

theorem byte_weak_payload_path {p : List Nat} {j : Nat} (h : j < p.length) :
    byte (p ++ ([0] ++ List.replicate (pad8 (p.length + 1)) 0)) j = byte p j :=
  byte_append_left h

theorem byte_weak_payload_zero {p : List Nat} {j : Nat} (h : p.length ≤ j) :
    byte (p ++ ([0] ++ List.replicate (pad8 (p.length + 1)) 0)) j = 0 := by
  rw [byte_append_ge h]
  by_cases hj : j - p.length = 0
  · rw [hj, byte_append_left (by simp)]
    rfl
  · rw [byte_append_ge (by simp; omega)]
    exact byte_replicate_zero

/-- Bytes 24 and beyond of the appended command are its payload. -/
theorem byte_weakCmdBytes_payload {p : List Nat} {j : Nat} :
    byte (weakCmdBytes p) (24 + j) =
      byte (p ++ ([0] ++ List.replicate (pad8 (p.length + 1)) 0)) j := by
  have hpre : weakCmdBytes p =
      (le32 LC_LOAD_WEAK_DYLIB ++ le32 (weakCmdSize p) ++ le32 24 ++ le32 2 ++
        le32 65536 ++ le32 65536) ++ (p ++ ([0] ++
          List.replicate (pad8 (p.length + 1)) 0)) := by
    simp [weakCmdBytes, List.append_assoc]
  rw [hpre]
  have hlen : (le32 LC_LOAD_WEAK_DYLIB ++ le32 (weakCmdSize p) ++ le32 24 ++
      le32 2 ++ le32 65536 ++ le32 65536).length = 24 := by simp [le32]
  conv_lhs => rw [show 24 + j = (le32 LC_LOAD_WEAK_DYLIB ++
    le32 (weakCmdSize p) ++ le32 24 ++ le32 2 ++ le32 65536 ++
    le32 65536).length + j from by rw [hlen]]
  exact byte_append_right

theorem read32_weakCmdBytes_0 {p : List Nat} :
    read32 (weakCmdBytes p) 0 = LC_LOAD_WEAK_DYLIB := by
  rw [weakCmdBytes_assoc, read32_le32_append]
  decide

theorem read32_weakCmdBytes_4 {p : List Nat} (h : weakCmdSize p < 4294967296) :
    read32 (weakCmdBytes p) 4 = weakCmdSize p := by
  rw [weakCmdBytes_assoc, show (4 : Nat) = 4 + 0 from rfl, read32_skip4,
    read32_le32_append]
  omega

theorem read32_weakCmdBytes_8 {p : List Nat} :
    read32 (weakCmdBytes p) 8 = 24 := by
  rw [weakCmdBytes_assoc, show (8 : Nat) = 4 + (4 + 0) from rfl, read32_skip4,
    read32_skip4, read32_le32_append]

theorem read32_weakCmdBytes_12 {p : List Nat} :
    read32 (weakCmdBytes p) 12 = 2 := by
  rw [weakCmdBytes_assoc, show (12 : Nat) = 4 + (4 + (4 + 0)) from rfl,
    read32_skip4, read32_skip4, read32_skip4, read32_le32_append]

theorem read32_weakCmdBytes_16 {p : List Nat} :
    read32 (weakCmdBytes p) 16 = 65536 := by
  rw [weakCmdBytes_assoc, show (16 : Nat) = 4 + (4 + (4 + (4 + 0))) from rfl,
    read32_skip4, read32_skip4, read32_skip4, read32_skip4, read32_le32_append]

theorem read32_weakCmdBytes_20 {p : List Nat} :
    read32 (weakCmdBytes p) 20 = 65536 := by
  rw [weakCmdBytes_assoc,
    show (20 : Nat) = 4 + (4 + (4 + (4 + (4 + 0)))) from rfl,
    read32_skip4, read32_skip4, read32_skip4, read32_skip4, read32_skip4,
    read32_le32_append]

/-- Claim C3 (amended): restricted to slices whose header size the code
computes correctly — 64-bit magic with ARM64 cputype; see the
counterexample for the excluded 64-bit non-ARM64 slices.  When
`append_weak_dylib` actually appends (no existing command references the
path and the command fits in the header slack), the appended command is
laid out as cmd `LC_LOAD_WEAK_DYLIB` (0x80000018),
`cmdsize = 24 + len + 1 + padding` (a multiple of 8), name offset 24,
timestamp 2, current and compat version 0x00010000, then the NUL-terminated
path and zero padding; the bytes sit at the end of the existing
load-command region, `ncmds` grows by 1 and `sizeofcmds` by `cmdsize`, and
the file length is unchanged. -/
theorem append_weak_dylib_layout (data path : List Nat)
    (hmagic : read32 data 0 = MH_MAGIC_64)
    (hcpu : read32 data 4 = CPU_TYPE_ARM64)
    (hex : dylibExists data path = false)
    (hfit : weakCmdSize path ≤ availableSpace data)
    (hroom : lcRegionEnd data + weakCmdSize path ≤ data.length)
    (hn : read32 data 16 + 1 < 4294967296)
    (hs : read32 data 20 + weakCmdSize path < 4294967296)
    (hnz : ∀ b ∈ path, b ≠ 0) :
    ∃ d', add_dylib_load_path data path = .ok d' ∧
      d'.length = data.length ∧
      lcRegionEnd data = 32 + read32 data 20 ∧
      weakCmdSize path = 24 + path.length + 1 + pad8 (path.length + 1) ∧
      weakCmdSize path % 8 = 0 ∧
      read32 d' (lcRegionEnd data) = LC_LOAD_WEAK_DYLIB ∧
      read32 d' (lcRegionEnd data + 4) = weakCmdSize path ∧
      read32 d' (lcRegionEnd data + 8) = 24 ∧
      read32 d' (lcRegionEnd data + 12) = 2 ∧
      read32 d' (lcRegionEnd data + 16) = 65536 ∧
      read32 d' (lcRegionEnd data + 20) = 65536 ∧
      cstr d' (lcRegionEnd data + 24) = path ∧
      (∀ j, path.length ≤ j → j < path.length + 1 + pad8 (path.length + 1) →
        byte d' (lcRegionEnd data + 24 + j) = 0) ∧
      read32 d' 16 = read32 data 16 + 1 ∧
      read32 d' 20 = read32 data 20 + weakCmdSize path := by
  have hchs : codeHeaderSize data = 32 := by
    simp [codeHeaderSize, hcpu, CPU_TYPE_ARM64]
  have he32 : lcRegionEnd data = 32 + read32 data 20 := by
    simp [lcRegionEnd, hchs]
  have hsz : 25 ≤ weakCmdSize path := weakCmdSize_ge
  have hszp : path.length + 25 ≤ weakCmdSize path := by
    simp [weakCmdSize]
    omega
  have hsz32 : weakCmdSize path < 4294967296 := by omega
  have hnclen : (weakCmdBytes path).length = weakCmdSize path :=
    weakCmdBytes_length
  have hee : 32 ≤ lcRegionEnd data := by omega
  have hlen57 : 57 ≤ data.length := by omega
  have hl1 : (writeAt data (lcRegionEnd data) (weakCmdBytes path)).length =
      data.length := by
    apply length_writeAt
    rw [hnclen]
    omega
  have hl2 : (writeAt (writeAt data (lcRegionEnd data) (weakCmdBytes path)) 20
      (le32 (read32 data 20 + weakCmdSize path))).length = data.length := by
    rw [length_writeAt, hl1]
    rw [hl1]
    simp [le32]
    omega
  have hl3 : (writeAt (writeAt (writeAt data (lcRegionEnd data)
      (weakCmdBytes path)) 20 (le32 (read32 data 20 + weakCmdSize path))) 16
      (le32 (read32 data 16 + 1))).length = data.length := by
    rw [length_writeAt, hl2]
    rw [hl2]
    simp [le32]
    omega
  have heq : add_dylib_load_path data path =
      .ok (writeAt (writeAt (writeAt data (lcRegionEnd data)
        (weakCmdBytes path)) 20 (le32 (read32 data 20 + weakCmdSize path))) 16
        (le32 (read32 data 16 + 1))) := by
    unfold add_dylib_load_path
    rw [if_neg (by simp [hex])]
    simp only []
    rw [if_neg (by omega)]
  have hbyte : ∀ k, k < weakCmdSize path →
      byte (writeAt (writeAt (writeAt data (lcRegionEnd data)
        (weakCmdBytes path)) 20 (le32 (read32 data 20 + weakCmdSize path))) 16
        (le32 (read32 data 16 + 1))) (lcRegionEnd data + k) =
      byte (weakCmdBytes path) k := by
    intro k hk
    rw [byte_writeAt_ge (by simp [le32]; omega) (by rw [hl2]; simp [le32]; omega)]
    rw [byte_writeAt_ge (by simp [le32]; omega) (by rw [hl1]; simp [le32]; omega)]
    rw [byte_writeAt_mid (by omega) (by rw [hnclen]; omega) (by omega)]
    congr 1
    omega
  have hread : ∀ k, k + 4 ≤ weakCmdSize path →
      read32 (writeAt (writeAt (writeAt data (lcRegionEnd data)
        (weakCmdBytes path)) 20 (le32 (read32 data 20 + weakCmdSize path))) 16
        (le32 (read32 data 16 + 1))) (lcRegionEnd data + k) =
      read32 (weakCmdBytes path) k := by
    intro k hk
    refine read32_congr fun j hj => ?_
    rw [show lcRegionEnd data + k + j = lcRegionEnd data + (k + j) from by omega]
    rw [hbyte (k + j) (by omega)]
  refine ⟨_, heq, hl3, he32, rfl, by simp [weakCmdSize, pad8]; omega,
    ?_, ?_, ?_, ?_, ?_, ?_, ?_, ?_, ?_, ?_⟩
  · -- cmd field
    have h0 := hread 0 (by omega)
    rw [read32_weakCmdBytes_0] at h0
    simpa using h0
  · rw [hread 4 (by omega), read32_weakCmdBytes_4 hsz32]
  · rw [hread 8 (by omega), read32_weakCmdBytes_8]
  · rw [hread 12 (by omega), read32_weakCmdBytes_12]
  · rw [hread 16 (by omega), read32_weakCmdBytes_16]
  · rw [hread 20 (by omega), read32_weakCmdBytes_20]
  · -- the NUL-terminated path
    apply cstr_eq
    · rw [hl3]
      omega
    · exact hnz
    · intro j hj
      rw [show lcRegionEnd data + 24 + j = lcRegionEnd data + (24 + j) from
        by omega]
      rw [hbyte (24 + j) (by simp [weakCmdSize]; omega)]
      rw [byte_weakCmdBytes_payload, byte_weak_payload_path hj]
    · rw [show lcRegionEnd data + 24 + path.length =
        lcRegionEnd data + (24 + path.length) from by omega]
      rw [hbyte (24 + path.length) (by simp [weakCmdSize]; omega)]
      rw [byte_weakCmdBytes_payload, byte_weak_payload_zero (Nat.le_refl _)]
  · -- trailing zero padding
    intro j hj1 hj2
    rw [show lcRegionEnd data + 24 + j = lcRegionEnd data + (24 + j) from
      by omega]
    rw [hbyte (24 + j) (by simp [weakCmdSize]; omega)]
    rw [byte_weakCmdBytes_payload, byte_weak_payload_zero hj1]
  · -- ncmds
    rw [read32_writeAt_le32 (by rw [hl2]; omega)]
    omega
  · -- sizeofcmds
    rw [read32_writeAt_ge (by simp [le32]) (by rw [hl2]; simp [le32]; omega)]
    rw [read32_writeAt_le32 (by rw [hl1]; omega)]
    omega

/-- Witness for C3: the layout theorem applied to the concrete ARM64 binary
`fileA` and the 8-byte path `path8`. -/
theorem append_weak_dylib_layout_witness :
    ∃ d', add_dylib_load_path fileA path8 = .ok d' ∧
      read32 d' (lcRegionEnd fileA) = LC_LOAD_WEAK_DYLIB ∧
      cstr d' (lcRegionEnd fileA + 24) = path8 ∧
      read32 d' 16 = read32 fileA 16 + 1 ∧
      read32 d' 20 = read32 fileA 20 + weakCmdSize path8 := by
  obtain ⟨d', h1, _, _, _, _, h6, _, _, _, _, _, h12, _, h14, h15⟩ :=
    append_weak_dylib_layout fileA path8 (by decide) (by decide) (by decide)
      (by decide) (by decide) (by decide) (by decide) (by decide)
  exact ⟨d', h1, h6, h12, h14, h15⟩

/-- Claim C4 (amended): restricted to slices whose header size the code
computes correctly — 64-bit magic with ARM64 cputype, where the space the
code measures coincides with the header slack of the claim; see the
counterexample for the excluded 64-bit non-ARM64 slices.  With no existing
command referencing the path, `append_weak_dylib` fails exactly when the
new command does not fit in the header slack, and in that case it reports
the header-space error. -/
theorem append_weak_dylib_space_check (data path : List Nat)
    (hmagic : read32 data 0 = MH_MAGIC_64)
    (hcpu : read32 data 4 = CPU_TYPE_ARM64)
    (hex : dylibExists data path = false) :
    (isErr (add_dylib_load_path data path) = true ↔
      availableSpace data < weakCmdSize path) ∧
    (availableSpace data < weakCmdSize path →
      add_dylib_load_path data path =
        .error ("Not enough space for new load command (need " ++
          toString (weakCmdSize path) ++ ", have " ++
          toString (availableSpace data) ++ ")")) := by
  unfold add_dylib_load_path
  rw [if_neg (by simp [hex])]
  simp only []
  by_cases hc : availableSpace data < weakCmdSize path
  · rw [if_pos (by omega)]
    exact ⟨⟨fun _ => hc, fun _ => rfl⟩, fun _ => rfl⟩
  · rw [if_neg (by omega)]
    refine ⟨⟨fun h => ?_, fun h => absurd h hc⟩, fun h => absurd h hc⟩
    simp [isErr] at h

/-- Witness for C4 at the exact boundary: `fileA` has slack 56 and the
56-byte command for `path31` fits; `fileB` has slack 55 and the append
fails with the header-space error. -/
theorem append_weak_dylib_space_check_witness :
    availableSpace fileA = weakCmdSize path31 ∧
    isErr (add_dylib_load_path fileA path31) = false ∧
    availableSpace fileB + 1 = weakCmdSize path31 ∧
    add_dylib_load_path fileB path31 =
      .error "Not enough space for new load command (need 56, have 55)" := by
  refine ⟨by decide, ?_, by decide, ?_⟩
  · have h := (append_weak_dylib_space_check fileA path31 (by decide)
      (by decide) (by decide)).1
    cases he : isErr (add_dylib_load_path fileA path31)
    · rfl
    · exact absurd (h.mp he) (by decide)
  · have h := (append_weak_dylib_space_check fileB path31 (by decide)
      (by decide) (by decide)).2 (by decide)
    rw [h]
    have hstr : "Not enough space for new load command (need " ++
        toString (weakCmdSize path31) ++ ", have " ++
        toString (availableSpace fileB) ++ ")" =
        "Not enough space for new load command (need 56, have 55)" := by
      decide
    rw [hstr]

/-- Counterexample for C3 as stated: on the thin x86_64 slice `fileX` an
actual append (no duplicate command, command fits) does not write the
command at the end of the existing load-command region, which ends at
byte 104: the command head (cmd = `LC_LOAD_WEAK_DYLIB`) lands at byte
100, overwriting the tail of the segment command, and byte 104 holds the
value 40 of its cmdsize field instead of a command start. -/
theorem append_weak_dylib_layout_cex :
    dylibExists fileX path8 = false ∧
    goblinHeaderSize fileX + read32 fileX 20 = 104 ∧
    read32 fileX 100 = 0 ∧
    Option.map (fun d => read32 d 100)
      (add_dylib_load_path fileX path8).toOption = some LC_LOAD_WEAK_DYLIB ∧
    Option.map (fun d => read32 d 104)
      (add_dylib_load_path fileX path8).toOption = some 40 := by
  exact ⟨by decide, by decide, by decide, by decide, by decide⟩

/-- Counterexample for C4 as stated: on the thin x86_64 slice `fileY` the
header slack in the claim's sense — from the end of the load-command
region (byte 104) to the smallest nonzero segment `fileoff` (159) — is
55 bytes, one less than the required cmdsize 56, yet the append succeeds:
the code measures the space from the cputype-derived header size 28 and
sees 59 bytes. -/
theorem append_weak_dylib_space_check_cex :
    dylibExists fileY path31 = false ∧
    goblinHeaderSize fileY + read32 fileY 20 = 104 ∧
    dataStart fileY = 159 ∧
    weakCmdSize path31 = 56 ∧
    isErr (add_dylib_load_path fileY path31) = false := by
  exact ⟨by decide, by decide, by decide, by decide, by decide⟩

/-- Claim C5: with no `LC_ID_DYLIB` the operation is a silent no-op; with
one whose payload area can hold the new name (NUL and padding included),
`replace_install_name` succeeds, keeps the file length, and the command
string afterwards reads exactly the new name (the old payload is zeroed
over its padded extent and payload bytes beyond it were already zero). -/
theorem replace_install_name_spec :
    (∀ data newName : List Nat, findIdDylib data = none →
      replace_install_name data newName = .ok data) ∧
    (∀ data newName : List Nat, ∀ off : Nat,
      findIdDylib data = some off →
      read32 data (off + 8) = 24 →
      24 < read32 data (off + 4) →
      off + read32 data (off + 4) ≤ data.length →
      newName.length + 1 + pad8 (newName.length + 1) ≤
        read32 data (off + 4) - 24 →
      (∀ b ∈ newName, b ≠ 0) →
      (∀ i, i < read32 data (off + 4) - 24 →
        (cstr data (off + 24)).length + 1 +
          pad8 ((cstr data (off + 24)).length + 1) ≤ i →
        byte data (off + 24 + i) = 0) →
      ∃ d', replace_install_name data newName = .ok d' ∧
        d'.length = data.length ∧ cstr d' (off + 24) = newName) := by
  constructor
  · intro data newName h
    simp [replace_install_name, h]
  · intro data newName off hfind hname hcs hbound hreq hnz hzero
    have hlt : off + 24 < data.length := by omega
    have hNlt : newName.length < read32 data (off + 4) - 24 := by omega
    have heq : replace_install_name data newName =
        .ok (writeAt (writeAt data (off + 24)
          (List.replicate (min ((cstr data (off + 24)).length + 1 +
            pad8 ((cstr data (off + 24)).length + 1))
            (read32 data (off + 4) - 24)) 0)) (off + 24) newName) := by
      simp only [replace_install_name, hfind, hname]
      unfold extract_dylib_path
      rw [if_neg (by omega)]
      rw [if_neg (by omega)]
    have hK : min ((cstr data (off + 24)).length + 1 +
        pad8 ((cstr data (off + 24)).length + 1))
        (read32 data (off + 4) - 24) ≤ read32 data (off + 4) - 24 := by omega
    have hl1 : (writeAt data (off + 24)
        (List.replicate (min ((cstr data (off + 24)).length + 1 +
          pad8 ((cstr data (off + 24)).length + 1))
          (read32 data (off + 4) - 24)) 0)).length = data.length := by
      apply length_writeAt
      simp only [List.length_replicate]
      omega
    have hl2 : (writeAt (writeAt data (off + 24)
        (List.replicate (min ((cstr data (off + 24)).length + 1 +
          pad8 ((cstr data (off + 24)).length + 1))
          (read32 data (off + 4) - 24)) 0)) (off + 24) newName).length =
        data.length := by
      rw [length_writeAt, hl1]
      rw [hl1]
      omega
    refine ⟨_, heq, hl2, ?_⟩
    apply cstr_eq
    · rw [hl2]
      omega
    · exact hnz
    · intro j hj
      rw [byte_writeAt_mid (by omega) (by omega) (by rw [hl1]; omega)]
      congr 1
      omega
    · rw [byte_writeAt_ge (by omega) (by rw [hl1]; omega)]
      by_cases hNK : newName.length < min ((cstr data (off + 24)).length + 1 +
          pad8 ((cstr data (off + 24)).length + 1))
          (read32 data (off + 4) - 24)
      · rw [byte_writeAt_mid (by omega) (by simp only [List.length_replicate]; omega)
          (by omega)]
        exact byte_replicate_zero
      · rw [byte_writeAt_ge (by simp only [List.length_replicate]; omega)
          (by simp only [List.length_replicate]; omega)]
        apply hzero
        · omega
        · omega

/-- Witness for C5: the concrete dylib `fileC` (old name `old.dylib`,
payload 32 bytes) gets its install name replaced by `@rpath/new.dylib`,
and on `fileA`, which has no `LC_ID_DYLIB`, the call is a no-op. -/
theorem replace_install_name_spec_witness :
    (∃ d', replace_install_name fileC newNameC = .ok d' ∧
      d'.length = fileC.length ∧ cstr d' 56 = newNameC) ∧
    replace_install_name fileA newNameC = .ok fileA := by
  constructor
  · obtain ⟨d', h1, h2, h3⟩ := replace_install_name_spec.2 fileC newNameC 32
      (by decide) (by decide) (by decide) (by decide) (by decide) (by decide)
      (by decide)
    exact ⟨d', h1, h2, h3⟩
  · exact replace_install_name_spec.1 fileA newNameC (by decide)

/-- Claim C2 (code evaluation): on the ARM64 slice `fileA` a second
`append_weak_dylib` with the same path is a byte-identical no-op (last
conjunct), but on the thin x86_64 slice `fileX` the first call succeeds
(`ncmds` becomes 2) and the second call appends again (`ncmds` becomes 3)
instead of being a no-op: the code sizes the Mach-O header from
`cputype == ARM64` instead of the magic, so on a 64-bit non-ARM64 slice
the command is written 4 bytes before the end of the load-command region
and is not found by the duplicate check of the second call. -/
theorem append_weak_dylib_idempotence_check :
    Option.map (fun d => read32 d 16)
      (add_dylib_load_path fileX path8).toOption = some 2 ∧
    Option.map (fun d => read32 d 16)
      (addTwice fileX path8).toOption = some 3 ∧
    (addTwice fileX path8).toOption ≠
      (add_dylib_load_path fileX path8).toOption ∧
    (addTwice fileA path8).toOption = (add_dylib_load_path fileA path8).toOption := by
  exact ⟨by decide, by decide, by decide, by decide⟩

/-- Claim C6: `thin_to_arm64` on a thin file reports "no change" exactly
when the CPU type is ARM64 and fails otherwise; on a fat file it writes
exactly the byte range of the first ARM64 slice and reports the file
modified, and fails when no ARM64 slice exists. -/
theorem thin_to_arm64_spec :
    (∀ (data : List Nat) (ct : Nat),
      (thin_to_arm64 data (.binary ct) = .ok (false, data) ↔
        ct = CPU_TYPE_ARM64) ∧
      (isErr (thin_to_arm64 data (.binary ct)) = true ↔
        ct ≠ CPU_TYPE_ARM64)) ∧
    (∀ (data : List Nat) (arches : List FatArch) (a : FatArch),
      arches.find? (fun x => x.cputype == CPU_TYPE_ARM64) = some a →
      thin_to_arm64 data (.fat arches) =
        .ok (true, (data.drop a.offset).take a.size)) ∧
    (∀ (data : List Nat) (arches : List FatArch),
      (∀ a ∈ arches, a.cputype ≠ CPU_TYPE_ARM64) →
      isErr (thin_to_arm64 data (.fat arches)) = true) := by
  refine ⟨fun data ct => ?_, fun data arches a h => ?_, fun data arches h => ?_⟩
  · by_cases hct : ct = CPU_TYPE_ARM64
    · subst hct
      simp [thin_to_arm64, isErr]
    · constructor
      · constructor
        · intro hok
          simp [thin_to_arm64, hct] at hok
        · intro hc
          exact absurd hc hct
      · constructor
        · intro _
          exact hct
        · intro _
          simp [thin_to_arm64, hct, isErr]
  · simp [thin_to_arm64, h]
  · have hnone : arches.find? (fun x => x.cputype == CPU_TYPE_ARM64) = none := by
      rw [List.find?_eq_none]
      intro a ha
      simp [h a ha]
    simp [thin_to_arm64, hnone, isErr]

/-- Witness for C6: a thin ARM64 file is a no-change success, a thin
x86_64 file fails, a fat file is replaced by the exact ARM64 slice range,
and a fat file without an ARM64 slice fails. -/
theorem thin_to_arm64_spec_witness :
    thin_to_arm64 [7] (.binary CPU_TYPE_ARM64) = .ok (false, [7]) ∧
    isErr (thin_to_arm64 [7] (.binary CPU_TYPE_X86_64)) = true ∧
    thin_to_arm64 (List.range 16)
      (.fat [⟨CPU_TYPE_X86_64, 0, 8⟩, ⟨CPU_TYPE_ARM64, 12, 4⟩]) =
      .ok (true, [12, 13, 14, 15]) ∧
    isErr (thin_to_arm64 (List.range 16) (.fat [⟨CPU_TYPE_X86_64, 0, 8⟩])) =
      true := by
  refine ⟨(thin_to_arm64_spec.1 [7] CPU_TYPE_ARM64).1.mpr rfl,
    (thin_to_arm64_spec.1 [7] CPU_TYPE_X86_64).2.mpr (by decide), ?_,
    thin_to_arm64_spec.2.2 (List.range 16) [⟨CPU_TYPE_X86_64, 0, 8⟩]
      (by decide)⟩
  have h := thin_to_arm64_spec.2.1 (List.range 16)
    [⟨CPU_TYPE_X86_64, 0, 8⟩, ⟨CPU_TYPE_ARM64, 12, 4⟩]
    ⟨CPU_TYPE_ARM64, 12, 4⟩ (by decide)
  rw [h]
  rfl

/-- Claim C8: the `.deb` data.tar dispatch accepts gzip, xz, lzma and
uncompressed members, and rejects `.bz2` and `.zst`/`.zstd` members with an
unsupported-compression error instead of silently proceeding. -/
theorem extract_data_tar_compression :
    extract_data_tar "data.tar.gz" = .ok () ∧
    extract_data_tar "data.tar.gzip" = .ok () ∧
    extract_data_tar "data.tar.xz" = .ok () ∧
    extract_data_tar "data.tar.lzma" = .ok () ∧
    extract_data_tar "data.tar" = .ok () ∧
    extract_data_tar "data.tar.bz2" =
      .error "bz2 compression not yet supported" ∧
    extract_data_tar "data.tar.zst" =
      .error "zstd compression not yet supported" ∧
    extract_data_tar "data.tar.zstd" =
      .error "zstd compression not yet supported" :=
  ⟨rfl, rfl, rfl, rfl, rfl, rfl, rfl, rfl⟩

/-! ## Error atomicity of the file-level operations -/

theorem isErr_mapSlices {f : List Nat → Except String (List Nat)}
    {slices : List (List Nat)} {s : List Nat} (hs : s ∈ slices)
    (herr : isErr (f s) = true) : isErr (mapSlices f slices) = true := by
  induction slices with
  | nil => cases hs
  | cons a rest ih =>
    simp only [mapSlices]
    cases hfa : f a with
    | error e => rfl
    | ok a' =>
      rcases List.mem_cons.mp hs with h | h
      · rw [h] at herr
        rw [hfa] at herr
        simp [isErr] at herr
      · have hrec := ih h
        cases hrest : mapSlices f rest with
        | error e => rfl
        | ok r =>
          rw [hrest] at hrec
          simp [isErr] at hrec

/-- Claim C9: each file-level Mach-O mutation runs every per-slice edit
before rewriting the file, so when any slice edit fails the call returns
the error and the bytes on disk are unchanged. -/
theorem mach_file_ops_atomic :
    (∀ (disk : List (List Nat)) (p : List Nat),
      (∃ s ∈ disk, isErr (add_dylib_load_path s p) = true) →
      (add_weak_dylib_file disk p).2 = disk ∧
      isErr (add_weak_dylib_file disk p).1 = true) ∧
    (∀ (disk : List (List Nat)) (p : List Nat),
      (∃ s ∈ disk, isErr (add_rpath_slice s p) = true) →
      (add_rpath_file disk p).2 = disk ∧
      isErr (add_rpath_file disk p).1 = true) ∧
    (∀ (disk : List (List Nat)) (oldP newP : List Nat),
      (∃ s ∈ disk, isErr (replace_dylib_load_path s oldP newP) = true) →
      (replace_dylib_file disk oldP newP).2 = disk ∧
      isErr (replace_dylib_file disk oldP newP).1 = true) ∧
    (∀ (disk : List (List Nat)) (newName : List Nat),
      (∃ s ∈ disk, isErr (replace_install_name s newName) = true) →
      (change_install_name_file disk newName).2 = disk ∧
      isErr (change_install_name_file disk newName).1 = true) := by
  refine ⟨?_, ?_, ?_, ?_⟩
  · intro disk p ⟨s, hs, herr⟩
    have h := @isErr_mapSlices (fun s => add_dylib_load_path s p) disk s hs herr
    unfold add_weak_dylib_file
    cases hms : mapSlices (fun s => add_dylib_load_path s p) disk with
    | error e => exact ⟨rfl, rfl⟩
    | ok r =>
      rw [hms] at h
      simp [isErr] at h
  · intro disk p ⟨s, hs, herr⟩
    have h := @isErr_mapSlices (fun s => add_rpath_slice s p) disk s hs herr
    unfold add_rpath_file
    cases hms : mapSlices (fun s => add_rpath_slice s p) disk with
    | error e => exact ⟨rfl, rfl⟩
    | ok r =>
      rw [hms] at h
      simp [isErr] at h
  · intro disk oldP newP ⟨s, hs, herr⟩
    have h := @isErr_mapSlices (fun s => replace_dylib_load_path s oldP newP)
      disk s hs herr
    unfold replace_dylib_file
    cases hms : mapSlices (fun s => replace_dylib_load_path s oldP newP) disk with
    | error e => exact ⟨rfl, rfl⟩
    | ok r =>
      rw [hms] at h
      simp [isErr] at h
  · intro disk newName ⟨s, hs, herr⟩
    have h := @isErr_mapSlices (fun s => replace_install_name s newName)
      disk s hs herr
    unfold change_install_name_file
    cases hms : mapSlices (fun s => replace_install_name s newName) disk with
    | error e => exact ⟨rfl, rfl⟩
    | ok r =>
      rw [hms] at h
      simp [isErr] at h

/-- Witness for C9: on the zero-slack binary `fileD` (which carries a
load command `a.dylib` and an id command `b.dylib` with 8-byte payloads)
all four file-level mutations fail and leave the disk bytes unchanged. -/
theorem mach_file_ops_atomic_witness :
    (add_weak_dylib_file [fileD] path8).2 = [fileD] ∧
    (add_rpath_file [fileD] rpathFrameworks).2 = [fileD] ∧
    (replace_dylib_file [fileD] pathOldA pathLong).2 = [fileD] ∧
    (change_install_name_file [fileD] pathLong).2 = [fileD] := by
  refine ⟨(mach_file_ops_atomic.1 [fileD] path8 ⟨fileD, ?_, by decide⟩).1,
    (mach_file_ops_atomic.2.1 [fileD] rpathFrameworks ⟨fileD, ?_, by decide⟩).1,
    (mach_file_ops_atomic.2.2.1 [fileD] pathOldA pathLong
      ⟨fileD, ?_, by decide⟩).1,
    (mach_file_ops_atomic.2.2.2 [fileD] pathLong ⟨fileD, ?_, by decide⟩).1⟩ <;>
  exact List.mem_singleton.mpr rfl

/-! ## get_dependencies -/

/-- Claim C10: for a fat input only the first successfully parsing slice
contributes dependencies (iteration breaks there), so strings only in
later slices never appear; and every returned path starts with
`/Library/`, `/usr/lib/` or `@`. -/
theorem get_dependencies_first_slice :
    (∀ (pre : List SliceParse) (libs : List String) (post : List SliceParse),
      (∀ s ∈ pre, s = SliceParse.failed) →
      get_dependencies (.fat (pre ++ SliceParse.parsed libs :: post)) =
        (collectLibs libs).filter depFilter) ∧
    (∀ (m : MachDeps) (d : String), d ∈ get_dependencies m →
      (startsWithS d "/Library/" || startsWithS d "/usr/lib/" ||
        startsWithS d "@") = true) := by
  constructor
  · intro pre libs post h
    have hfirst : firstParsedLibs (pre ++ SliceParse.parsed libs :: post) =
        libs := by
      induction pre with
      | nil => rfl
      | cons a rest ih =>
        have ha : a = SliceParse.failed := h a (by simp)
        rw [ha]
        simp only [List.cons_append, firstParsedLibs]
        exact ih fun s hs => h s (by simp [hs])
    simp [get_dependencies, hfirst]
  · intro m d hd
    have hf : depFilter d = true := by
      cases m with
      | binary libs => exact (List.mem_filter.mp hd).2
      | fat slices => exact (List.mem_filter.mp hd).2
    simpa [depFilter] using hf

/-- Witness for C10: the second slice parses first; the `/Library/` path
present only in the third slice does not appear, the `self` and `/tmp/`
entries are filtered, and the returned entry passes the prefix filter. -/
theorem get_dependencies_first_slice_witness :
    get_dependencies (.fat [SliceParse.failed,
      SliceParse.parsed ["self", "/usr/lib/libz.dylib", "/tmp/x.dylib"],
      SliceParse.parsed ["/Library/later.dylib"]]) = ["/usr/lib/libz.dylib"] ∧
    (startsWithS "/usr/lib/libz.dylib" "/Library/" ||
      startsWithS "/usr/lib/libz.dylib" "/usr/lib/" ||
      startsWithS "/usr/lib/libz.dylib" "@") = true := by
  constructor
  · have h := get_dependencies_first_slice.1 [SliceParse.failed]
      ["self", "/usr/lib/libz.dylib", "/tmp/x.dylib"]
      [SliceParse.parsed ["/Library/later.dylib"]] (by decide)
    have h2 : (collectLibs ["self", "/usr/lib/libz.dylib", "/tmp/x.dylib"]).filter
        depFilter = ["/usr/lib/libz.dylib"] := by decide
    rw [h2] at h
    simpa using h
  · exact get_dependencies_first_slice.2
      (.fat [SliceParse.failed,
        SliceParse.parsed ["self", "/usr/lib/libz.dylib", "/tmp/x.dylib"],
        SliceParse.parsed ["/Library/later.dylib"]])
      "/usr/lib/libz.dylib" (by decide)

/-! ## Planner lemmas -/

theorem mem_insertIfAbsent_self {l : List String} {x : String} :
    x ∈ insertIfAbsent l x := by
  unfold insertIfAbsent
  split
  · assumption
  · simp

theorem mem_insertIfAbsent_of_mem {l : List String} {x y : String}
    (h : y ∈ l) : y ∈ insertIfAbsent l x := by
  unfold insertIfAbsent
  split
  · exact h
  · simp [h]

theorem mem_commonStep {d : String} {acc : List String}
    {kv : String × CommonDep} {y : String} (h : y ∈ acc) :
    y ∈ commonStep d acc kv := by
  unfold commonStep
  split
  · exact mem_insertIfAbsent_of_mem h
  · exact h

theorem mem_foldl_commonStep {d : String} {kvs : List (String × CommonDep)}
    {acc : List String} {y : String} (h : y ∈ acc) :
    y ∈ kvs.foldl (commonStep d) acc := by
  induction kvs generalizing acc with
  | nil => exact h
  | cons kv rest ih => exact ih (mem_commonStep h)

theorem orion_mem_fixCommonDepsOne {d : String}
    (h : containsFrag (toLowerS d) "orion." = true) (acc : List String) :
    "orion." ∈ fixCommonDepsOne d acc := by
  unfold fixCommonDepsOne COMMON_DEPS
  simp only [List.foldl_cons, List.foldl_nil]
  apply mem_commonStep
  apply mem_commonStep
  apply mem_commonStep
  unfold commonStep
  rw [if_pos h]
  exact mem_insertIfAbsent_self

theorem mem_fixCommonDeps_mono {deps : List String} {needed : List String}
    {y : String} (h : y ∈ needed) : y ∈ fixCommonDeps deps needed := by
  induction deps generalizing needed with
  | nil => exact h
  | cons a rest ih =>
    simp only [fixCommonDeps, List.foldl_cons]
    exact ih (mem_foldl_commonStep h)

theorem orion_mem_fixCommonDeps {deps : List String} {dep : String}
    (hdep : dep ∈ deps) (h : containsFrag (toLowerS dep) "orion." = true)
    (needed : List String) : "orion." ∈ fixCommonDeps deps needed := by
  induction deps generalizing needed with
  | nil => cases hdep
  | cons a rest ih =>
    simp only [fixCommonDeps, List.foldl_cons]
    rcases List.mem_cons.mp hdep with hh | hh
    · rw [← hh]
      exact mem_fixCommonDeps_mono (orion_mem_fixCommonDepsOne h needed)
    · exact ih hh _

theorem suffix_length_eq {s a b : List Char} (ha : a <:+ s) (hb : b <:+ s)
    (hlen : a.length = b.length) : a = b := by
  obtain ⟨p, hp⟩ := ha
  obtain ⟨q, hq⟩ := hb
  rw [← hq] at hp
  exact (List.append_inj' hp hlen).2

theorem endsWith_dylib_not_appex {s : String}
    (h : endsWithS s ".dylib" = true) : endsWithS s ".appex" = false := by
  unfold endsWithS at h ⊢
  rw [decide_eq_true_eq] at h
  rw [decide_eq_false_iff_not]
  intro hb
  have heq := suffix_length_eq hb h (by decide)
  exact absurd heq (by decide)

theorem processTweak_needed_mono {ufd : Bool} {st : BundleState} {t : Tweak}
    {y : String} (h : y ∈ st.needed) : y ∈ (processTweak ufd st t).needed := by
  unfold processTweak
  split_ifs <;> first
    | exact h
    | exact mem_fixCommonDeps_mono h

theorem processTweak_files_mono {ufd : Bool} {st : BundleState} {t : Tweak}
    {y : String} (h : y ∈ st.files) : y ∈ (processTweak ufd st t).files := by
  unfold processTweak
  split_ifs <;> first
    | exact h
    | exact List.mem_append_left _ h

theorem foldl_processTweak_needed_mono {ufd : Bool} {tweaks : List Tweak}
    {st : BundleState} {y : String} (h : y ∈ st.needed) :
    y ∈ (tweaks.foldl (processTweak ufd) st).needed := by
  induction tweaks generalizing st with
  | nil => exact h
  | cons a rest ih =>
    simp only [List.foldl_cons]
    exact ih (processTweak_needed_mono h)

theorem orion_mem_foldl_processTweak {ufd : Bool} {tweaks : List Tweak}
    {st : BundleState} {t : Tweak} {dep : String} (ht : t ∈ tweaks)
    (hsym : t.isSymlink = false) (hdy : endsWithS t.bn ".dylib" = true)
    (hdep : dep ∈ t.deps)
    (hor : containsFrag (toLowerS dep) "orion." = true) :
    "orion." ∈ (tweaks.foldl (processTweak ufd) st).needed := by
  induction tweaks generalizing st with
  | nil => cases ht
  | cons a rest ih =>
    simp only [List.foldl_cons]
    rcases List.mem_cons.mp ht with hh | hh
    · apply foldl_processTweak_needed_mono
      rw [← hh]
      unfold processTweak
      rw [if_neg (by simp [hsym]), if_neg (by simp [endsWith_dylib_not_appex hdy]),
        if_pos hdy]
      exact orion_mem_fixCommonDeps hdep hor _
    · exact ih hh

/-- Claim C7: if an injected (non-symlink) dylib has a dependency whose
lowercased path contains `orion.`, the pass materialises both
`Orion.framework/` and `CydiaSubstrate.framework/` in the destination
directory (the `orion.` fragment implies `substrate.`, and both map to
registry frameworks). -/
theorem inject_orion_implies_substrate (ufd : Bool) (tweaks : List Tweak)
    (exe0 : MainExe) (t : Tweak) (dep : String) (ht : t ∈ tweaks)
    (hsym : t.isSymlink = false) (hdy : endsWithS t.bn ".dylib" = true)
    (hdep : dep ∈ t.deps)
    (hor : containsFrag (toLowerS dep) "orion." = true) :
    ((if ufd then "Frameworks/" else "") ++ "Orion.framework/") ∈
      (inject ufd tweaks exe0).files ∧
    ((if ufd then "Frameworks/" else "") ++ "CydiaSubstrate.framework/") ∈
      (inject ufd tweaks exe0).files := by
  unfold inject
  simp only []
  have hmem : "orion." ∈ (tweaks.foldl (processTweak ufd)
      ⟨if (tweaks.any fun t => endsWithS t.bn ".deb" || endsWithS t.bn ".dylib" ||
          endsWithS t.bn ".framework") && ufd then
        addRpathCmd exe0 "@executable_path/Frameworks" else exe0, [], []⟩).needed :=
    orion_mem_foldl_processTweak ht hsym hdy hdep hor
  rw [if_pos hmem]
  constructor
  · apply List.mem_append_right
    apply List.mem_filterMap.mpr
    refine ⟨"orion.", mem_insertIfAbsent_of_mem hmem, ?_⟩
    simp [get_framework_for_dep]
    cases ufd <;> rfl
  · apply List.mem_append_right
    apply List.mem_filterMap.mpr
    refine ⟨"substrate.", mem_insertIfAbsent_self, ?_⟩
    simp [get_framework_for_dep]
    cases ufd <;> rfl

/-- Witness for C7: injecting `tweak.dylib`, which depends on
`/Library/MobileSubstrate/DynamicLibraries/Orion.dylib`, materialises
Orion and CydiaSubstrate under `Frameworks/`. -/
theorem inject_orion_implies_substrate_witness :
    "Frameworks/Orion.framework/" ∈
      (inject true [⟨"tweak.dylib",
        ["/Library/MobileSubstrate/DynamicLibraries/Orion.dylib"], false⟩]
        ⟨[], []⟩).files ∧
    "Frameworks/CydiaSubstrate.framework/" ∈
      (inject true [⟨"tweak.dylib",
        ["/Library/MobileSubstrate/DynamicLibraries/Orion.dylib"], false⟩]
        ⟨[], []⟩).files := by
  have h := inject_orion_implies_substrate true
    [⟨"tweak.dylib", ["/Library/MobileSubstrate/DynamicLibraries/Orion.dylib"],
      false⟩] ⟨[], []⟩
    ⟨"tweak.dylib", ["/Library/MobileSubstrate/DynamicLibraries/Orion.dylib"],
      false⟩
    "/Library/MobileSubstrate/DynamicLibraries/Orion.dylib"
    (by simp) rfl (by decide) (by simp) (by decide)
  simpa using h

/-- Claim C1: injecting a single `.dylib` follows the layout profile.
With `use_frameworks_dir = false` the dylib lands at the bundle root, the
main executable gains exactly one `LC_LOAD_WEAK_DYLIB` whose path is
`@executable_path/<basename>` and no `LC_RPATH`; with
`use_frameworks_dir = true` it lands under `Frameworks/`, the executable
gains the rpath `@executable_path/Frameworks` and a weak-dylib command
`@rpath/<basename>`. -/
theorem inject_single_dylib_layout (t : Tweak) (exe0 : MainExe)
    (hsym : t.isSymlink = false)
    (hdy : endsWithS t.bn ".dylib" = true)
    (hfresh1 : ("@executable_path/" ++ t.bn) ∉ exe0.dylibCmds)
    (hfresh2 : ("@rpath/" ++ t.bn) ∉ exe0.dylibCmds)
    (hfresh3 : "@executable_path/Frameworks" ∉ exe0.rpaths) :
    ((inject false [t] exe0).exe.dylibCmds =
        exe0.dylibCmds ++ ["@executable_path/" ++ t.bn] ∧
      (inject false [t] exe0).exe.rpaths = exe0.rpaths ∧
      t.bn ∈ (inject false [t] exe0).files) ∧
    ((inject true [t] exe0).exe.dylibCmds =
        exe0.dylibCmds ++ ["@rpath/" ++ t.bn] ∧
      (inject true [t] exe0).exe.rpaths =
        exe0.rpaths ++ ["@executable_path/Frameworks"] ∧
      ("Frameworks/" ++ t.bn) ∈ (inject true [t] exe0).files) := by
  have hnapp := endsWith_dylib_not_appex hdy
  have hproc : ∀ (ufd : Bool) (exe1 : MainExe),
      processTweak ufd ⟨exe1, [], []⟩ t =
        ⟨injectDylibCmd exe1 ((if ufd then "@rpath/" else "@executable_path/") ++
          t.bn), [if ufd then "Frameworks/" ++ t.bn else t.bn],
          fixCommonDeps t.deps []⟩ := by
    intro ufd exe1
    unfold processTweak
    rw [if_neg (by simp [hsym]), if_neg (by simp [hnapp]), if_pos hdy]
    cases ufd <;> rfl
  constructor
  · -- no-frameworks profile
    unfold inject
    simp only [Bool.and_false, Bool.false_eq_true, if_false, List.foldl_cons,
      List.foldl_nil, hproc]
    refine ⟨?_, ?_, ?_⟩
    · simp [injectDylibCmd, hfresh1]
    · simp [injectDylibCmd, hfresh1]
    · apply List.mem_append_left
      simp
  · -- frameworks profile
    unfold inject
    have hinj : ([t].any fun t => endsWithS t.bn ".deb" ||
        endsWithS t.bn ".dylib" || endsWithS t.bn ".framework") = true := by
      simp [hdy]
    simp only [hinj, Bool.true_and, if_true, List.foldl_cons, List.foldl_nil,
      hproc]
    refine ⟨?_, ?_, ?_⟩
    · simp [injectDylibCmd, addRpathCmd, hfresh2, hfresh3]
    · simp [injectDylibCmd, addRpathCmd, hfresh2, hfresh3]
    · apply List.mem_append_left
      simp

/-- Witness for C1: injecting `tweak.dylib` into a fresh executable under
both layout profiles. -/
theorem inject_single_dylib_layout_witness :
    ((inject false [⟨"tweak.dylib", [], false⟩] ⟨[], []⟩).exe.dylibCmds =
        ["@executable_path/tweak.dylib"] ∧
      (inject false [⟨"tweak.dylib", [], false⟩] ⟨[], []⟩).exe.rpaths = [] ∧
      "tweak.dylib" ∈ (inject false [⟨"tweak.dylib", [], false⟩] ⟨[], []⟩).files) ∧
    ((inject true [⟨"tweak.dylib", [], false⟩] ⟨[], []⟩).exe.dylibCmds =
        ["@rpath/tweak.dylib"] ∧
      (inject true [⟨"tweak.dylib", [], false⟩] ⟨[], []⟩).exe.rpaths =
        ["@executable_path/Frameworks"] ∧
      "Frameworks/tweak.dylib" ∈
        (inject true [⟨"tweak.dylib", [], false⟩] ⟨[], []⟩).files) := by
  have h := inject_single_dylib_layout ⟨"tweak.dylib", [], false⟩ ⟨[], []⟩
    rfl (by decide) (by simp) (by simp) (by simp)
  simpa using h

end Ruzule
